import Mathlib

/-!
Verification of the mcp2rest gateway: a shallow embedding of the protocol
envelope handling (pkg/mcp/mcp.go), the request handler
(internal/handler/handler.go), the response transformer
(internal/transformer), the authentication manager (internal/auth) and the
server transports (internal/server/server.go), together with theorems
settling the design-document claims about them.

Modelling conventions:
* JSON documents are represented structurally by `JSONValue`; JSON numbers
  are modelled as integers (the claims only exercise integer literals).
* Go maps that the source serializes or iterates are modelled as
  association lists in source order.
* External libraries (`gojq`, `text/template`, the HTTP client, the
  process environment) are passed in as explicit function parameters, so
  every definition stays executable.
-/

set_option autoImplicit false
set_option linter.unusedVariables false

namespace Mcp2Rest

/-! String primitives.  The Go string functions the source uses
(`strings.ToUpper`, `Split`, `ReplaceAll`, ...) are re-implemented here
by structural recursion over character lists, so that every definition
evaluates inside the kernel. -/

/-- ASCII lower-casing (Go `strings.ToLower`; the development's inputs
are ASCII). -/
def strToLower (s : String) : String :=
  ⟨s.toList.map Char.toLower⟩

/-- ASCII upper-casing (Go `strings.ToUpper`). -/
def strToUpper (s : String) : String :=
  ⟨s.toList.map Char.toUpper⟩

/-- Whether `lead` is an initial run of `l`. -/
def listLead : List Char → List Char → Bool
  | [], _ => true
  | _ :: _, [] => false
  | p :: ps, c :: cs => p == c && listLead ps cs

/-- Go `strings.HasPrefix s lead` (arguments swapped). -/
def strHasLead (lead s : String) : Bool :=
  listLead lead.toList s.toList

/-- Go `strings.HasSuffix s tail` (arguments swapped). -/
def strHasTail (tail s : String) : Bool :=
  listLead tail.toList.reverse s.toList.reverse

/-- Drop the first `n` characters (Go slicing `s[n:]` on ASCII input). -/
def strDrop (n : Nat) (s : String) : String :=
  ⟨s.toList.drop n⟩

/-- Split a character list on a separator character. -/
def splitOnChar (sep : Char) : List Char → List (List Char)
  | [] => [[]]
  | c :: cs =>
      match splitOnChar sep cs with
      | [] => [[]]
      | g :: gs => if c == sep then [] :: g :: gs else (c :: g) :: gs

/-- Go `strings.Split(s, sep)` for a one-character separator. -/
def goSplit (sep : Char) (s : String) : List String :=
  (splitOnChar sep s.toList).map (fun l => ⟨l⟩)

/-- Fuel-driven worker for `replaceAll`: at each position, a match of the
pattern emits the replacement and skips the matched run; the fuel (the
input length) makes the recursion structural. -/
def replaceAllAux (pat rep : List Char) : Nat → List Char → List Char
  | 0, l => l
  | _ + 1, [] => []
  | fuel + 1, c :: cs =>
      if !pat.isEmpty && listLead pat (c :: cs) then
        rep ++ replaceAllAux pat rep fuel ((c :: cs).drop pat.length)
      else c :: replaceAllAux pat rep fuel cs

/-- Go `strings.ReplaceAll(s, pat, rep)` for a non-empty pattern (the
source only ever replaces `{name}` placeholders, which are non-empty;
an empty pattern leaves the string unchanged here). -/
def replaceAll (s pat rep : String) : String :=
  ⟨replaceAllAux pat.toList rep.toList s.toList.length s.toList⟩

/-- Structural model of a Go `interface{}` value decoded from JSON
(`encoding/json` terms: nil, bool, number, string, []interface{},
map[string]interface{}).  Numbers are modelled as integers. -/
inductive JSONValue where
  | null
  | bool (b : Bool)
  | num (n : Int)
  | str (s : String)
  | arr (elems : List JSONValue)
  | obj (fields : List (String × JSONValue))

/-- Model of `encoding/json` string quoting, restricted to the characters
the development exercises (no escape-needing characters appear in any
claim input). -/
def jsonQuote (s : String) : String := "\"" ++ s ++ "\""

mutual
/-- Model of `encoding/json.Marshal` on a decoded value: compact output,
strings quoted verbatim.  Object fields are emitted in stored order (Go
sorts map keys; no claim depends on the serialized byte order, so the
model keeps the association-list order). -/
def serialize : JSONValue → String
  | .null => "null"
  | .bool b => if b then "true" else "false"
  | .num n => toString n
  | .str s => jsonQuote s
  | .arr elems => "[" ++ serializeElems elems ++ "]"
  | .obj fields => "\x7b" ++ serializeFields fields ++ "\x7d"

/-- Comma-joined serialization of array elements. -/
def serializeElems : List JSONValue → String
  | [] => ""
  | [v] => serialize v
  | v :: vs => serialize v ++ "," ++ serializeElems vs

/-- Comma-joined serialization of object fields. -/
def serializeFields : List (String × JSONValue) → String
  | [] => ""
  | [(k, v)] => jsonQuote k ++ ":" ++ serialize v
  | (k, v) :: fs => jsonQuote k ++ ":" ++ serialize v ++ "," ++ serializeFields fs
end

/-- A Go value passed to `json.Marshal` at the call sites the claims
exercise: either a Go `string` or an already-decoded JSON document. -/
inductive GoVal where
  | str (s : String)
  | json (v : JSONValue)

/-- `json.Marshal` of a `GoVal`, at the JSON-document level: a Go string
marshals to a JSON string, a decoded document to itself. -/
def GoVal.marshal : GoVal → JSONValue
  | .str s => .str s
  | .json v => v

/-- Model of `mcp.MCPError`. -/
structure MCPError where
  code : Int
  message : String
deriving Repr, DecidableEq

/-- Model of `mcp.MCPRequest`.  The `id` field is a `json.RawMessage` in
the source: `none` models a missing/nil id, `some v` the decoded id. -/
structure MCPRequest where
  jsonrpc : String
  id : Option JSONValue
  method : String
  params : Option JSONValue

/-- Model of `mcp.MCPResponse` (`result`/`error` are `omitempty`). -/
structure MCPResponse where
  jsonrpc : String
  id : JSONValue
  result : Option JSONValue
  error : Option MCPError

/-- Model of `(*MCPRequest).GetIDString`: nil id gives `""`; a JSON string
id unmarshals as a Go string; a JSON number id unmarshals as a
`json.Number` and is rendered with `String()`; anything else falls back to
the raw bytes of the id. -/
def MCPRequest.GetIDString (r : MCPRequest) : String :=
  match r.id with
  | none => ""
  | some (.str s) => s
  | some (.num n) => toString n
  | some v => serialize v

/-- Model of `(*MCPResponse).SetID`: marshal the Go value and store the
bytes (here: the document) as the response id. -/
def MCPResponse.SetID (r : MCPResponse) (id : GoVal) : MCPResponse :=
  { r with id := id.marshal }

/-- Model of `mcp.NewSuccessResponse` (marshalling of the in-memory result
cannot fail in the model, so the error return is dropped). -/
def NewSuccessResponse (id : GoVal) (result : JSONValue) : MCPResponse :=
  MCPResponse.SetID { jsonrpc := "2.0", id := .null, result := some result, error := none } id

/-- Model of `mcp.NewErrorResponse`. -/
def NewErrorResponse (id : GoVal) (code : Int) (message : String) : MCPResponse :=
  MCPResponse.SetID
    { jsonrpc := "2.0", id := .null, result := none,
      error := some { code := code, message := message } } id

/-- Model of `mcp.ToolCallParams`. -/
structure ToolCallParams where
  name : String
  parameters : List (String × JSONValue)

/-- Model of `mcp.ToolCallResult`. -/
structure ToolCallResult where
  type : String
  status : String
  result : JSONValue

/-- Model of `mcp.ParseToolCallParams`: unmarshal the raw params into
`ToolCallParams`.  Absent fields decode to their zero values; a
non-object document, or a field of the wrong type, is a decode error. -/
def ParseToolCallParams : Option JSONValue → Except String ToolCallParams
  | some (.obj fields) =>
      match fields.lookup "name" with
      | some (.str n) =>
          match fields.lookup "parameters" with
          | some (.obj ps) => .ok { name := n, parameters := ps }
          | none => .ok { name := n, parameters := [] }
          | some .null => .ok { name := n, parameters := [] }
          | some _ => .error "解析工具调用参数失败"
      | none =>
          match fields.lookup "parameters" with
          | some (.obj ps) => .ok { name := "", parameters := ps }
          | none => .ok { name := "", parameters := [] }
          | some .null => .ok { name := "", parameters := [] }
          | some _ => .error "解析工具调用参数失败"
      | some _ => .error "解析工具调用参数失败"
  | _ => .error "解析工具调用参数失败"

/-! Stdio transport: the emission behaviour of `(*Server).processRequest`
(internal/server/server.go).  The request is handed to `handleMCPRequest`
in a goroutine; `processRequest` then observes one of three outcomes:
the per-request timeout fired, the handler returned an error, or the
handler completed with an optional serialized response. -/

/-- Outcome of waiting on the `handleMCPRequest` goroutine inside
`processRequest`. -/
inductive StdioOutcome where
  | timeout
  | failed (err : String)
  | completed (response : Option String)

/-- What `processRequest` writes to standard output for a given raw
request line and handler outcome: a freshly built error envelope on
timeout or handler failure (`Sum.inl`), the handler's serialized response
bytes otherwise (`Sum.inr`), and nothing for a notification. -/
def processRequestEmits (taskData : String) (outcome : StdioOutcome) :
    Option (MCPResponse ⊕ String) :=
  match outcome with
  | .timeout => some (.inl (NewErrorResponse (.str "") (-32001) "Request timed out"))
  | .failed e => some (.inl (NewErrorResponse (.str "") (-32603) ("处理请求失败: " ++ e)))
  | .completed none => none
  | .completed (some resp) => some (.inr resp)

/-! OpenAPI data model (internal/config/config.go). -/

/-- Model of `config.Schema`.  Recursive through `properties` and `items`,
so it is an inductive with accessor functions. -/
inductive Schema where
  | mk (type format : String) (properties : List (String × Schema))
       (required : List String) (items : Option Schema) (ref : String)

/-- The `Type` field of a schema. -/
def Schema.type : Schema → String
  | .mk t _ _ _ _ _ => t

/-- The `Format` field of a schema. -/
def Schema.format : Schema → String
  | .mk _ f _ _ _ _ => f

/-- Model of `config.Parameter`.  The Go field `In` (parameter location:
"path", "query", "body" or "header") is called `inLoc` here because `in`
is reserved in Lean. -/
structure Parameter where
  name : String
  inLoc : String
  description : String
  required : Bool
  schema : Schema

/-- Model of `config.MediaType`. -/
structure MediaType where
  schema : Schema

/-- Model of `config.RequestBody`.  `content` is a Go map that may be nil:
`none` models the nil map (no request body declared), `some` a present
(possibly empty) map. -/
structure RequestBody where
  description : String
  required : Bool
  content : Option (List (String × MediaType))

/-- Model of `config.Response`. -/
structure Response where
  description : String
  content : Option (List (String × MediaType))

/-- Model of `config.SecurityScheme`. -/
structure SecurityScheme where
  type : String
  scheme : String
  name : String
  inLoc : String

/-- Model of `config.Operation`.  A security requirement
(`map[string][]string` in Go) is an association list from scheme name to
scope list. -/
structure Operation where
  summary : String
  description : String
  operationID : String
  tags : List String
  parameters : List Parameter
  requestBody : RequestBody
  responses : List (String × Response)
  security : List (List (String × List String))

/-- Model of `config.PathItem`: HTTP method (lower-case document key) to
operation. -/
def PathItem := List (String × Operation)

/-- Model of `config.OpenAPIServer`. -/
structure OpenAPIServer where
  url : String
  description : String

/-- Model of `config.OpenAPIComponents` (schemas are not consumed by the
modelled code paths and are omitted). -/
structure OpenAPIComponents where
  securitySchemes : List (String × SecurityScheme)

/-- Model of `config.OpenAPISpec`. -/
structure OpenAPISpec where
  openapi : String
  servers : List OpenAPIServer
  paths : List (String × PathItem)
  components : OpenAPIComponents
  security : List (List (String × List String))

/-- Model of `config.AuthConfig`. -/
structure AuthConfig where
  type : String
  tokenEnv : String
  headerName : String
  keyEnv : String
  username : String
  password : String

/-- The zero value of `config.AuthConfig` (all fields empty), produced by
`&config.AuthConfig{}` in `applyAuthentication`. -/
def AuthConfig.zero : AuthConfig :=
  { type := "", tokenEnv := "", headerName := "", keyEnv := "", username := "", password := "" }

/-- Model of `config.ServerConfig`. -/
structure ServerConfig where
  port : Int
  host : String
  mode : String

/-- Model of `config.GlobalConfig` (the timeout is consumed only by the
HTTP client and the stdio watchdog, both abstracted; kept as a number of
nanoseconds for completeness). -/
structure GlobalConfig where
  timeout : Nat
  maxRequestSize : String
  defaultHeaders : List (String × String)

/-- Model of `config.Config`. -/
structure Config where
  server : ServerConfig
  global : GlobalConfig

/-! Operation-identifier generation (internal/handler/handler.go,
`generateOperationID`), including a model of Go's `strings.Title`. -/

/-- Model of the separator test used by Go's `strings.Title` for ASCII
characters: ASCII letters, digits and underscore are not separators,
every other ASCII character is.  Non-ASCII characters are treated as
non-separators (Go treats non-ASCII letters and digits as non-separators;
the inputs the development exercises are ASCII). -/
def goIsSeparator (c : Char) : Bool :=
  if c.toNat ≤ 0x7F then !(c.isAlphanum || c == '_')
  else false

/-- Character-list worker for `goTitle`: upper-case a character that
follows a separator (Go applies `unicode.ToTitle`, which on ASCII agrees
with upper-casing), keep every other character. -/
def goTitleChars : Char → List Char → List Char
  | _, [] => []
  | prev, c :: cs => (if goIsSeparator prev then c.toUpper else c) :: goTitleChars c cs

/-- Model of Go's `strings.Title` (the previous-rune state starts as a
space, which is a separator). -/
def goTitle (s : String) : String :=
  ⟨goTitleChars ' ' s.toList⟩

/-- Model of `strings.TrimPrefix(path, "/")`. -/
def trimLeadingSlash (p : String) : String :=
  if strHasLead "/" p then strDrop 1 p else p

/-- A path segment that is a path-parameter placeholder: it starts with
an opening brace and ends with a closing brace. -/
def isPathPlaceholder (part : String) : Bool :=
  strHasLead "\x7b" part && strHasTail "\x7d" part

/-- Concatenation of a list of strings (Go `strings.Join(parts, "")`). -/
def strJoin : List String → String
  | [] => ""
  | s :: ss => s ++ strJoin ss

/-- The loop body of `generateOperationID`: walk the path segments,
dropping placeholder segments, title-casing and collecting the non-empty
rest. -/
def genOpIDParts : List String → List String
  | [] => []
  | part :: rest =>
      if isPathPlaceholder part then genOpIDParts rest
      else if part.length > 0 then goTitle part :: genOpIDParts rest
      else genOpIDParts rest

/-- Model of `handler.generateOperationID`: strip the leading slash, split
on "/", drop placeholder segments, title-case the remaining non-empty
segments, concatenate, and prepend the lower-cased HTTP method. -/
def generateOperationID (method path : String) : String :=
  strToLower method ++ strJoin (genOpIDParts (goSplit '/' (trimLeadingSlash path)))

/-- The identifier-generation algorithm exactly as the specification
words it (for comparison with `generateOperationID`): strip the leading
slash, split the path on "/", drop every placeholder segment, title-case
each remaining segment, concatenate, and prepend the lower-cased verb. -/
def generateOperationIDSpec (method path : String) : String :=
  strToLower method ++
    strJoin (((goSplit '/' (trimLeadingSlash path)).filter
      (fun s => !(isPathPlaceholder s))).map goTitle)

/-- Model of `handler.isHTTPMethod`. -/
def isHTTPMethod (method : String) : Bool :=
  let m := strToUpper method
  m == "GET" || m == "POST" || m == "PUT" || m == "DELETE" ||
    m == "PATCH" || m == "HEAD" || m == "OPTIONS" || m == "TRACE"

/-! HTTP headers with Go's canonical MIME key normalization
(`net/http.Header.Set` / `Get` go through
`textproto.CanonicalMIMEHeaderKey`). -/

/-- The characters `net/textproto` accepts in a header field name. -/
def isTokenChar (c : Char) : Bool :=
  c.isAlphanum ||
    ['!', '#', '$', '%', '&', Char.ofNat 39, '*', '+', '-', '.', '^', '_',
      Char.ofNat 96, '|', '~'].contains c

/-- Character worker for `canonicalMIMEHeaderKey`: upper-case the first
character and each character following a dash, lower-case the rest. -/
def canonicalKeyChars : Bool → List Char → List Char
  | _, [] => []
  | upperNext, c :: cs =>
      let c2 := if upperNext then c.toUpper else c.toLower
      c2 :: canonicalKeyChars (c2 == '-') cs

/-- Model of `textproto.CanonicalMIMEHeaderKey`: canonical form when every
character is a valid token character, the key unchanged otherwise. -/
def canonicalMIMEHeaderKey (s : String) : String :=
  if s.toList.all isTokenChar then ⟨canonicalKeyChars true s.toList⟩ else s

/-- Model of `http.Header.Set`: canonicalize the key and replace any
existing value (headers are an association list with canonical keys). -/
def headerSet (h : List (String × String)) (key value : String) : List (String × String) :=
  let ck := canonicalMIMEHeaderKey key
  if h.any (fun kv => kv.1 == ck) then
    h.map (fun kv => if kv.1 == ck then (ck, value) else kv)
  else h ++ [(ck, value)]

/-- Model of `http.Header.Get` (as an `Option`; Go returns `""` for a
missing key). -/
def headerGet (h : List (String × String)) (key : String) : Option String :=
  h.lookup (canonicalMIMEHeaderKey key)

/-- Model of an `http.Request` as far as the handler observes it: method,
full URL, headers, and the decoded JSON body (`none` models the empty
`bytes.NewBuffer(nil)` body of a request without payload). -/
structure HTTPRequest where
  method : String
  url : String
  headers : List (String × String)
  body : Option JSONValue

/-! Go value formatting: `fmt.Sprintf("%v", value)` on decoded JSON
values, used for path/query parameter stringification. -/

mutual
/-- Model of `fmt.Sprintf("%v", v)` on a decoded JSON value (maps print
their entries in stored order; Go sorts map keys, but no claim depends on
it). -/
def goFormat : JSONValue → String
  | .null => "<nil>"
  | .bool b => if b then "true" else "false"
  | .num n => toString n
  | .str s => s
  | .arr elems => "[" ++ goFormatElems elems ++ "]"
  | .obj fields => "map[" ++ goFormatFields fields ++ "]"

/-- Space-joined `%v` formatting of slice elements. -/
def goFormatElems : List JSONValue → String
  | [] => ""
  | [v] => goFormat v
  | v :: vs => goFormat v ++ " " ++ goFormatElems vs

/-- Space-joined `%v` formatting of map entries. -/
def goFormatFields : List (String × JSONValue) → String
  | [] => ""
  | [(k, v)] => k ++ ":" ++ goFormat v
  | (k, v) :: fs => k ++ ":" ++ goFormat v ++ " " ++ goFormatFields fs
end

/-! The request builder (`handler.buildHTTPRequest`). -/

/-- Modelled from the spec: `openapi.GetBaseURL` is not under `src/`
(only its caller in the handler is).  Section 4.1 of the specification:
"the first declared server URL in the specification, or empty if none". -/
def GetBaseURL (spec : OpenAPISpec) : String :=
  match spec.servers with
  | [] => ""
  | srv :: _ => srv.url

/-- Association-list update with Go map semantics (`m[k] = v`): replace
an existing entry, append otherwise. -/
def assocSet {α : Type} (m : List (String × α)) (key : String) (value : α) :
    List (String × α) :=
  if m.any (fun kv => kv.1 == key) then
    m.map (fun kv => if kv.1 == key then (key, value) else kv)
  else m ++ [(key, value)]

/-- The path-parameter pass of `buildHTTPRequest`: for each operation
parameter with location "path", replace every occurrence of the
placeholder in the URL with the `%v`-formatted value; a missing required
path parameter is a hard error. -/
def substPathParams (params : List (String × JSONValue)) :
    List Parameter → String → Except String String
  | [], url => .ok url
  | p :: ps, url =>
      if p.inLoc == "path" then
        match params.lookup p.name with
        | some v =>
            substPathParams params ps
              (replaceAll url ("\x7b" ++ p.name ++ "\x7d") (goFormat v))
        | none =>
            if p.required then .error ("缺少必需的路径参数: " ++ p.name)
            else substPathParams params ps url
      else substPathParams params ps url

/-- The query-parameter pass of `buildHTTPRequest` (only reached for GET
and DELETE): collect each declared "query" parameter present in the call
into `url.Values` (set semantics); a missing required query parameter is
a hard error. -/
def collectQueryParams (params : List (String × JSONValue)) :
    List Parameter → List (String × String) → Except String (List (String × String))
  | [], acc => .ok acc
  | p :: ps, acc =>
      if p.inLoc == "query" then
        match params.lookup p.name with
        | some v => collectQueryParams params ps (assocSet acc p.name (goFormat v))
        | none =>
            if p.required then .error ("缺少必需的查询参数: " ++ p.name)
            else collectQueryParams params ps acc
      else collectQueryParams params ps acc

/-- Hexadecimal digit (upper case) for `queryEscape`. -/
def hexDigit (n : Nat) : Char :=
  if n < 10 then Char.ofNat (48 + n) else Char.ofNat (55 + n)

/-- Model of `url.QueryEscape` for ASCII strings: unreserved characters
pass through, space becomes `+`, everything else is percent-encoded. -/
def queryEscape (s : String) : String :=
  strJoin (s.toList.map fun c =>
    if c.isAlphanum || c == '-' || c == '_' || c == '.' || c == '~' then
      String.singleton c
    else if c == ' ' then "+"
    else "%" ++ String.singleton (hexDigit (c.toNat / 16)) ++
      String.singleton (hexDigit (c.toNat % 16)))

/-- Insertion into a key-sorted list of query pairs (`url.Values.Encode`
sorts the keys). -/
def insertByKey (kv : String × String) : List (String × String) → List (String × String)
  | [] => [kv]
  | kv2 :: rest =>
      if (compare kv.1 kv2.1).isLE then kv :: kv2 :: rest
      else kv2 :: insertByKey kv rest

/-- Sort query pairs by key. -/
def sortByKey : List (String × String) → List (String × String)
  | [] => []
  | kv :: rest => insertByKey kv (sortByKey rest)

/-- Model of `url.Values.Encode`: key-sorted `k=v` pairs joined with `&`,
both sides query-escaped. -/
def encodeQuery (q : List (String × String)) : String :=
  match sortByKey q with
  | [] => ""
  | kv :: rest =>
      rest.foldl
        (fun acc kv2 => acc ++ "&" ++ queryEscape kv2.1 ++ "=" ++ queryEscape kv2.2)
        (queryEscape kv.1 ++ "=" ++ queryEscape kv.2)

/-- The body-parameter pass of `buildHTTPRequest` (only reached for POST,
PUT and PATCH when the operation declares request-body content): collect
each declared "body" parameter present in the call; a missing required
body parameter is a hard error. -/
def collectBodyParams (params : List (String × JSONValue)) :
    List Parameter → List (String × JSONValue) → Except String (List (String × JSONValue))
  | [], acc => .ok acc
  | p :: ps, acc =>
      if p.inLoc == "body" then
        match params.lookup p.name with
        | some v => collectBodyParams params ps (assocSet acc p.name v)
        | none =>
            if p.required then .error ("缺少必需的请求体参数: " ++ p.name)
            else collectBodyParams params ps acc
      else collectBodyParams params ps acc

/-- Model of `handler.buildHTTPRequest`: base URL resolution, path
substitution, query string (GET/DELETE), JSON body (POST/PUT/PATCH, only
when the operation declares request-body content, with the whole
parameter mapping as fallback), and the JSON content type.  The Go
control flow is expressed as nested matches: each pass's error
short-circuits. -/
def buildHTTPRequest (spec : OpenAPISpec) (operation : Operation)
    (method path : String) (params : List (String × JSONValue)) :
    Except String HTTPRequest :=
  let baseURL := GetBaseURL spec
  if baseURL == "" then .error "OpenAPI规范中未定义服务器URL"
  else
    match substPathParams params operation.parameters (baseURL ++ path) with
    | .error e => .error e
    | .ok urlAfterPath =>
        if method == "GET" || method == "DELETE" then
          match collectQueryParams params operation.parameters [] with
          | .error e => .error e
          | .ok queryParams =>
              let fullURL :=
                if queryParams.length > 0 then
                  urlAfterPath ++ "?" ++ encodeQuery queryParams
                else urlAfterPath
              .ok { method := method, url := fullURL, headers := [], body := none }
        else if method == "POST" || method == "PUT" || method == "PATCH" then
          match operation.requestBody.content with
          | none =>
              .ok { method := method, url := urlAfterPath,
                    headers := headerSet [] "Content-Type" "application/json",
                    body := none }
          | some _ =>
              match collectBodyParams params operation.parameters [] with
              | .error e => .error e
              | .ok collected =>
                  let requestBody :=
                    if collected.length == 0 && params.length > 0 then params
                    else collected
                  .ok { method := method, url := urlAfterPath,
                        headers := headerSet [] "Content-Type" "application/json",
                        body := some (.obj requestBody) }
        else
          .ok { method := method, url := urlAfterPath, headers := [], body := none }

/-! The authentication manager (internal/auth) and the handler's
`applyAuthentication`.  The process environment is an explicit function
parameter (`os.Getenv` returns `""` for unset variables, so unset and
empty coincide, as in Go). -/

/-- The base64 alphabet used by `base64.StdEncoding`. -/
def base64Table : List Char :=
  "ABCDEFGHIJKLMNOPQRSTUVWXYZabcdefghijklmnopqrstuvwxyz0123456789+/".toList

/-- Pick the base64 digit for a 6-bit value. -/
def base64Digit (n : Nat) : Char :=
  base64Table.getD n '?'

/-- Encode a byte list (as naturals) in base64 with padding. -/
def base64Chunks : List Nat → String
  | [] => ""
  | [a] =>
      String.singleton (base64Digit (a / 4)) ++
        String.singleton (base64Digit (a % 4 * 16)) ++ "=="
  | [a, b] =>
      String.singleton (base64Digit (a / 4)) ++
        String.singleton (base64Digit (a % 4 * 16 + b / 16)) ++
        String.singleton (base64Digit (b % 16 * 4)) ++ "="
  | a :: b :: c :: rest =>
      String.singleton (base64Digit (a / 4)) ++
        String.singleton (base64Digit (a % 4 * 16 + b / 16)) ++
        String.singleton (base64Digit (b % 16 * 4 + c / 64)) ++
        String.singleton (base64Digit (c % 64)) ++ base64Chunks rest

/-- Model of `base64.StdEncoding.EncodeToString` on a string's UTF-8
bytes. -/
def base64Encode (s : String) : String :=
  base64Chunks (s.toUTF8.data.toList.map UInt8.toNat)

/-- Model of `auth.applyBearerAuth`. -/
def applyBearerAuth (env : String → String) (req : HTTPRequest) (cfg : AuthConfig) :
    Except String HTTPRequest :=
  if cfg.tokenEnv == "" then .error "Bearer身份验证需要指定token_env"
  else
    let token := env cfg.tokenEnv
    if token == "" then .error ("环境变量 " ++ cfg.tokenEnv ++ " 未设置或为空")
    else .ok { req with headers := headerSet req.headers "Authorization" ("Bearer " ++ token) }

/-- Model of `auth.applyAPIKeyAuth`. -/
def applyAPIKeyAuth (env : String → String) (req : HTTPRequest) (cfg : AuthConfig) :
    Except String HTTPRequest :=
  if cfg.headerName == "" then .error "API密钥身份验证需要指定header_name"
  else if cfg.keyEnv == "" then .error "API密钥身份验证需要指定key_env"
  else
    let apiKey := env cfg.keyEnv
    if apiKey == "" then .error ("环境变量 " ++ cfg.keyEnv ++ " 未设置或为空")
    else .ok { req with headers := headerSet req.headers cfg.headerName apiKey }

/-- Model of `auth.applyBasicAuth`. -/
def applyBasicAuth (env : String → String) (req : HTTPRequest) (cfg : AuthConfig) :
    Except String HTTPRequest :=
  let username := if cfg.username == "" && cfg.tokenEnv != "" then env cfg.tokenEnv else cfg.username
  let password := if cfg.password == "" && cfg.keyEnv != "" then env cfg.keyEnv else cfg.password
  if username == "" || password == "" then .error "基本身份验证需要用户名和密码"
  else
    .ok { req with
          headers := headerSet req.headers "Authorization"
            ("Basic " ++ base64Encode (username ++ ":" ++ password)) }

/-- Model of `auth.AuthManager.ApplyAuth` (the `oauth2` case delegates to
the bearer path, as in the source). -/
def ApplyAuth (env : String → String) (req : HTTPRequest) (cfg : AuthConfig) :
    Except String HTTPRequest :=
  if cfg.type == "" then .ok req
  else if cfg.type == "bearer" then applyBearerAuth env req cfg
  else if cfg.type == "api_key" then applyAPIKeyAuth env req cfg
  else if cfg.type == "basic" then applyBasicAuth env req cfg
  else if cfg.type == "oauth2" then applyBearerAuth env req cfg
  else .error ("不支持的身份验证类型: " ++ cfg.type)

/-- Modelled from the spec: `openapi.GetSecurityScheme` is not under
`src/` (only its caller in the handler is).  Section 4.3 of the
specification: "look it up in the specification's security-scheme table",
an error when the scheme name is absent. -/
def GetSecurityScheme (spec : OpenAPISpec) (schemeName : String) :
    Except String SecurityScheme :=
  match spec.components.securitySchemes.lookup schemeName with
  | some s => .ok s
  | none => .error ("未找到安全方案: " ++ schemeName)

/-- The `switch securityScheme.Type` of `handler.applyAuthentication`,
building an `AuthConfig` from the scheme; unmatched types leave the zero
value (which `ApplyAuth` treats as a no-op). -/
def buildAuthConfig (schemeName : String) (s : SecurityScheme) : AuthConfig :=
  if s.type == "apiKey" then
    { AuthConfig.zero with
      type := "api_key", headerName := s.name,
      keyEnv := strToUpper schemeName ++ "_API_KEY" }
  else if s.type == "http" then
    if s.scheme == "bearer" then
      { AuthConfig.zero with type := "bearer", tokenEnv := strToUpper schemeName ++ "_TOKEN" }
    else if s.scheme == "basic" then
      { AuthConfig.zero with type := "basic", username := "", password := "" }
    else AuthConfig.zero
  else if s.type == "oauth2" then
    { AuthConfig.zero with type := "oauth2", tokenEnv := strToUpper schemeName ++ "_TOKEN" }
  else AuthConfig.zero

/-- Model of `handler.applyAuthentication`: a no-op without a security
requirement; otherwise take the first requirement's first scheme name,
resolve it, build the `AuthConfig` and apply it.  (The Go `for ... range`
over the requirement map returns inside its first iteration; an empty
requirement map falls through to success.) -/
def applyAuthentication (env : String → String) (spec : OpenAPISpec)
    (operation : Operation) (req : HTTPRequest) : Except String HTTPRequest :=
  match operation.security with
  | [] => .ok req
  | securityReq :: _ =>
      match securityReq with
      | [] => .ok req
      | (schemeName, _) :: _ =>
          match GetSecurityScheme spec schemeName with
          | .error e => .error ("获取安全方案失败: " ++ e)
          | .ok scheme => ApplyAuth env req (buildAuthConfig schemeName scheme)

/-! The operation index (`openapi.GetOperationByID`) and the handler
pipeline (`handler.HandleRequest`). -/

/-- Walk one path item's method map looking for a matching operation. -/
def findOpInPathItem (toolName path : String) :
    List (String × Operation) → Option (Operation × String × String)
  | [] => none
  | (method, op) :: rest =>
      if isHTTPMethod method &&
          (op.operationID == toolName || generateOperationID method path == toolName) then
        some (op, strToUpper method, path)
      else findOpInPathItem toolName path rest

/-- Walk the whole paths map. -/
def findOpInPaths (toolName : String) :
    List (String × PathItem) → Option (Operation × String × String)
  | [] => none
  | (path, item) :: rest =>
      match findOpInPathItem toolName path item with
      | some r => some r
      | none => findOpInPaths toolName rest

/-- Modelled from the spec: `openapi.GetOperationByID` is not under
`src/` (only its callers and its signature in REFACTORING.md are).
Section 4.1 of the specification, resolve(toolName): iterate every
(path, method) pair; a match occurs when the tool name equals the
operation's explicit identifier or its generated one; NotFound is an
error.  Returns the operation together with its (upper-cased) HTTP method
and path template, as the handler's call site requires. -/
def GetOperationByID (spec : OpenAPISpec) (operationID : String) :
    Except String (Operation × String × String) :=
  match findOpInPaths operationID spec.paths with
  | some r => .ok r
  | none => .error ("未找到操作: " ++ operationID)

/-- The default-header pass of `handler.HandleRequest`: `Header.Set` each
configured default header on the request. -/
def applyDefaultHeaders (defaults : List (String × String)) (req : HTTPRequest) :
    HTTPRequest :=
  { req with headers := defaults.foldl (fun h kv => headerSet h kv.1 kv.2) req.headers }

/-- The status-code policy of `handler.HandleRequest` after the HTTP call
returns (extracted from the tail of `HandleRequest` for direct reuse):
non-2xx statuses become an error `ToolCallResult` carrying a range tag,
the numeric code and the raw body; 2xx statuses run the response
transformer (`shape`, the `TransformResponse` method whose body is not
under `src/`) and wrap its output as a success result. -/
def processHTTPResponse (shape : String → Except String JSONValue)
    (status : Nat) (body : String) : Except String ToolCallResult :=
  if status < 200 ∨ 300 ≤ status then
    let errorMsg :=
      if 400 ≤ status ∧ status < 500 then "客户端错误"
      else if 500 ≤ status then "服务器错误"
      else "API返回错误状态码: " ++ toString status
    .ok { type := "error", status := "error",
          result := .obj [("message", .str errorMsg), ("code", .num status),
                          ("body", .str body)] }
  else
    match shape body with
    | .error e => .error ("转换响应失败: " ++ e)
    | .ok v => .ok { type := "success", status := "success", result := v }

/-- Model of `handler.HandleRequest`, instrumented with the list of HTTP
requests actually handed to the transport (`doHTTP`, the `http.Client`):
resolve the operation, build the request, apply authentication THEN the
configured default headers (in that source order), execute the call, and
apply the status-code policy.  `doHTTP` returns the status code and raw
body, or a network-level error. -/
def HandleRequest (env : String → String)
    (doHTTP : HTTPRequest → Except String (Nat × String))
    (shape : String → Except String JSONValue)
    (cfg : GlobalConfig) (spec : OpenAPISpec) (params : ToolCallParams) :
    Except String ToolCallResult × List HTTPRequest :=
  match GetOperationByID spec params.name with
  | .error e => (.error ("查找操作失败: " ++ e), [])
  | .ok (operation, method, path) =>
      match buildHTTPRequest spec operation method path params.parameters with
      | .error e => (.error ("构建HTTP请求失败: " ++ e), [])
      | .ok req =>
          match applyAuthentication env spec operation req with
          | .error e => (.error ("应用身份验证失败: " ++ e), [])
          | .ok authedReq =>
              let finalReq := applyDefaultHeaders cfg.defaultHeaders authedReq
              match doHTTP finalReq with
              | .error e => (.error ("发送HTTP请求失败: " ++ e), [finalReq])
              | .ok (status, body) => (processHTTPResponse shape status body, [finalReq])

/-! The response transformer (internal/transformer/transformer.go).
`gojq` and `text/template` are external libraries: a compiled jq query is
abstracted as a function from the input document to the sequence of
values/errors its iterator yields, and the template engine as a function
from (template, data) to rendered text. -/

/-- A compiled jq query, as the transformer observes it: the run iterator
yields a sequence whose elements are either values or errors. -/
def JQQuery := JSONValue → List (Except String JSONValue)

/-- Model of `config.TransformConfig`. -/
structure TransformConfig where
  type : String
  expression : String
  template : String

/-- The iterator loop of `transformWithJQ`: walk the emitted sequence,
aborting on the first error element, otherwise remembering the last value
(a `nil` result — here `JSONValue.null` — when nothing is emitted). -/
def jqIterate : List (Except String JSONValue) → JSONValue → Except String JSONValue
  | [], last => .ok last
  | .error e :: _, _ => .error ("执行JQ表达式失败: " ++ e)
  | .ok v :: rest, _ => jqIterate rest v

/-- Model of `transformer.transformWithJQ`: an empty expression is a hard
error; parse the expression (`gojqParse` models `gojq.Parse`), unmarshal
the raw data (`unmarshal` models `json.Unmarshal`), run the query and
fold the iterator. -/
def transformWithJQ (gojqParse : String → Except String JQQuery)
    (unmarshal : String → Except String JSONValue)
    (data expression : String) : Except String JSONValue :=
  if expression == "" then .error "JQ表达式不能为空"
  else
    match gojqParse expression with
    | .error e => .error ("解析JQ表达式失败: " ++ e)
    | .ok query =>
        match unmarshal data with
        | .error e => .error ("解析JSON数据失败: " ++ e)
        | .ok input => jqIterate (query input) .null

/-- Model of `transformer.transformWithTemplate`: an empty template
string is a hard error; unmarshal the data, render the template
(`tmplExec` models `text/template` parse + execute), and return the
rendered text parsed as JSON when it is valid JSON, the raw rendered
string otherwise. -/
def transformWithTemplate (unmarshal : String → Except String JSONValue)
    (tmplExec : String → JSONValue → Except String String)
    (data templateStr : String) : Except String JSONValue :=
  if templateStr == "" then .error "模板字符串不能为空"
  else
    match unmarshal data with
    | .error e => .error ("解析JSON数据失败: " ++ e)
    | .ok jsonData =>
        match tmplExec templateStr jsonData with
        | .error e => .error e
        | .ok rendered =>
            match unmarshal rendered with
            | .error _ => .ok (.str rendered)
            | .ok result => .ok result

/-- Model of `transformer.Transform`: a nil config, an empty type or
"direct" parse the data and return it unchanged; "jq" and "template"
dispatch to their transformers; "custom" and unknown types are errors. -/
def Transform (gojqParse : String → Except String JQQuery)
    (unmarshal : String → Except String JSONValue)
    (tmplExec : String → JSONValue → Except String String)
    (data : String) (transformConfig : Option TransformConfig) :
    Except String JSONValue :=
  match transformConfig with
  | none =>
      match unmarshal data with
      | .error e => .error ("解析JSON响应失败: " ++ e)
      | .ok result => .ok result
  | some tc =>
      if tc.type == "" || tc.type == "direct" then
        match unmarshal data with
        | .error e => .error ("解析JSON响应失败: " ++ e)
        | .ok result => .ok result
      else if tc.type == "jq" then transformWithJQ gojqParse unmarshal data tc.expression
      else if tc.type == "template" then
        transformWithTemplate unmarshal tmplExec data tc.template
      else if tc.type == "custom" then .error "自定义转换尚未实现"
      else .error ("不支持的转换类型: " ++ tc.type)

/-! The protocol engine (internal/server/server.go): `handleMCPRequest`'s
method dispatch and the per-method handlers.  The engine is modelled on
already-decoded envelopes; byte-level envelope parsing is the transport's
external JSON codec. -/

/-- Model of `server.getServerName`. -/
def getServerName (mode : String) : String :=
  if mode == "stdio" then "MCP2REST-STDIO"
  else if mode == "sse" then "MCP2REST-SSE"
  else "MCP2REST"

/-- The capability/serverInfo document built by `handleInitialize`. -/
def initializeResult (mode : String) : JSONValue :=
  .obj [("protocolVersion", .str "2024-11-05"),
        ("capabilities",
          .obj [("tools", .obj [("listChanged", .bool true)]),
                ("resources", .obj [("subscribe", .bool true), ("unsubscribe", .bool true)]),
                ("logging", .obj [("logMessage", .bool true)]),
                ("streamableHttp", .obj [("request", .bool true)])]),
        ("serverInfo", .obj [("name", .str (getServerName mode)),
                             ("version", .str "1.0.0")])]

/-- Model of `server.handleInitialize`: decode the initialize params
(lenient, as `json.Unmarshal` into the params struct: any JSON object
decodes, a missing or non-object params document is an error) and reply
with the capability document. -/
def handleInitialize (mode : String) (request : MCPRequest) : MCPResponse :=
  match request.params with
  | some (.obj _) => NewSuccessResponse (.str request.GetIDString) (initializeResult mode)
  | _ => NewErrorResponse (.str request.GetIDString) (-32602) "无效的初始化参数"

/-- Model of `handler.getSchemaType`: the schema's declared type when
present; otherwise (including every format-inference branch, all of which
yield "string") the default "string". -/
def getSchemaType (schema : Schema) : String :=
  if schema.type != "" then schema.type
  else if schema.format != "" then
    if schema.format == "date-time" || schema.format == "date" ||
        schema.format == "email" || schema.format == "uri" then "string"
    else "string"
  else "string"

/-- One tool descriptor of `handler.GetAvailableTools`: name (the
generated operation id), description and the input schema derived from
the declared parameters. -/
def toolDescriptor (method path : String) (operation : Operation) : JSONValue :=
  let operationID := generateOperationID method path
  let inputSchema :=
    if operation.parameters.length > 0 then
      JSONValue.obj
        [("type", .str "object"),
         ("properties",
           .obj (operation.parameters.map fun p =>
             (p.name, JSONValue.obj [("type", .str (getSchemaType p.schema)),
                                     ("description", .str p.description)]))),
         ("required",
           .arr ((operation.parameters.filter (fun p => p.required)).map
             fun p => .str p.name))]
    else
      JSONValue.obj [("type", .str "object"), ("properties", .obj []),
                     ("required", .arr [])]
  .obj [("name", .str operationID), ("description", .str operation.description),
        ("inputSchema", inputSchema)]

/-- Model of `handler.GetAvailableTools`: a descriptor for every
(path, method) pair whose document key is an HTTP verb. -/
def GetAvailableTools (spec : OpenAPISpec) : List JSONValue :=
  (spec.paths.map fun pathEntry =>
    (pathEntry.2.filter (fun mo => isHTTPMethod mo.1)).map fun mo =>
      toolDescriptor mo.1 pathEntry.1 mo.2).flatten

/-- Model of `server.handleToolsList`. -/
def handleToolsList (spec : OpenAPISpec) (request : MCPRequest) : MCPResponse :=
  NewSuccessResponse (.str request.GetIDString)
    (.obj [("tools", .arr (GetAvailableTools spec))])

/-- Model of `server.handleToolCall`, instrumented like `HandleRequest`
with the outbound HTTP requests made: decode the tool-call params, strip
a `mcp_` name prefix, delegate to the handler, and wrap the result (or
the failure) as a `tools/call` response with `content` blocks and an
`isError` flag.  `json.MarshalIndent` of the success payload is modelled
by the compact serializer (indentation is byte-level formatting no claim
observes); a `nil` payload (`JSONValue.null`) renders as the empty
string. -/
def handleToolCall (env : String → String)
    (doHTTP : HTTPRequest → Except String (Nat × String))
    (shape : String → Except String JSONValue)
    (cfg : GlobalConfig) (spec : OpenAPISpec) (request : MCPRequest) :
    MCPResponse × List HTTPRequest :=
  match ParseToolCallParams request.params with
  | .error e =>
      (NewErrorResponse (.str request.GetIDString) (-32602) ("无效的参数: " ++ e), [])
  | .ok toolParams0 =>
      let toolParams :=
        if strHasLead "mcp_" toolParams0.name then
          { toolParams0 with name := strDrop 4 toolParams0.name }
        else toolParams0
      match HandleRequest env doHTTP shape cfg spec toolParams with
      | (.error e, calls) =>
          (NewErrorResponse (.str request.GetIDString) (-32603) ("内部错误: " ++ e), calls)
      | (.ok result, calls) =>
          let toolCallResponse : JSONValue :=
            if result.type == "error" then
              .obj [("content",
                      .arr [.obj [("type", .str "text"),
                                  ("text", .str ("错误: " ++ goFormat result.result))]]),
                    ("isError", .bool true)]
            else
              let resultText :=
                match result.result with
                | .null => ""
                | r => serialize r
              .obj [("content",
                      .arr [.obj [("type", .str "text"), ("text", .str resultText)]]),
                    ("isError", .bool false)]
          (NewSuccessResponse (.str request.GetIDString) toolCallResponse, calls)

/-- Model of `server.handleExit`'s response (the asynchronous shutdown
side effect is transport lifecycle, outside the engine model). -/
def handleExit (request : MCPRequest) : MCPResponse :=
  NewSuccessResponse (.str request.GetIDString) .null

/-- Model of `server.handleMCPRequest` on a decoded envelope: the
JSON-RPC version check, then the method dispatch.  Notification methods
return no response (`none`); every other path returns an envelope.
Instrumented with the outbound HTTP requests made. -/
def handleMCPRequestCore (env : String → String)
    (doHTTP : HTTPRequest → Except String (Nat × String))
    (shape : String → Except String JSONValue)
    (cfg : Config) (spec : OpenAPISpec) (request : MCPRequest) :
    Option MCPResponse × List HTTPRequest :=
  if request.jsonrpc != "2.0" then
    (some (NewErrorResponse (.str request.GetIDString) (-32600) "不支持的JSON-RPC版本"), [])
  else if request.method == "initialize" then
    (some (handleInitialize cfg.server.mode request), [])
  else if request.method == "notifications/initialized" then (none, [])
  else if request.method == "notifications/cancelled" then (none, [])
  else if request.method == "tools/list" then (some (handleToolsList spec request), [])
  else if request.method == "toolCall" || request.method == "tools/call" then
    let (resp, calls) := handleToolCall env doHTTP shape cfg.global spec request
    (some resp, calls)
  else if request.method == "exit" then (some (handleExit request), [])
  else
    (some (NewErrorResponse (.str request.GetIDString) (-32601) "不支持的方法"), [])

/-! The SSE transport (internal/server/server.go): session/connection
tables, `pushMessageToSession`, and the message endpoint
`handleMCPMessages`. -/

/-- The response envelope as a JSON document (`result` and `error` are
`omitempty`). -/
def responseToJSON (r : MCPResponse) : JSONValue :=
  .obj ([("jsonrpc", JSONValue.str r.jsonrpc), ("id", r.id)] ++
    (match r.result with
     | some v => [("result", v)]
     | none => []) ++
    (match r.error with
     | some e => [("error", JSONValue.obj [("code", .num e.code),
                                           ("message", .str e.message)])]
     | none => []))

/-- `json.Marshal` of a response envelope. -/
def serializeResponse (r : MCPResponse) : String :=
  serialize (responseToJSON r)

/-- Model of `server.MCPSession` (times as abstract tick counts). -/
structure MCPSession where
  id : String
  clientID : String
  endpoint : String
  createdAt : Nat
  lastActivity : Nat

/-- Model of `server.SSEConnection` as far as the push path observes it
(the stream writer, flusher and cancellation are transport I/O). -/
structure SSEConnection where
  id : String
  remoteAddr : String
  sessionID : String

/-- The server's shared SSE state: the session table and the connection
table, both keyed by their ids. -/
structure ServerState where
  sessions : List (String × MCPSession)
  sseConnections : List (String × SSEConnection)

/-- Model of `server.pushMessageToSession`: look up the session, then the
connection registered for the session's client; when both exist, write a
`message` SSE event whose data line is the message bytes (`string(message)`
— the empty string when the message is nil).  Returns the event text
written to the stream, or `none` when nothing is written. -/
def pushMessageToSession (st : ServerState) (sessionID : String)
    (message : Option String) : Option String :=
  match st.sessions.lookup sessionID with
  | none => none
  | some session =>
      match st.sseConnections.lookup session.clientID with
      | none => none
      | some _ =>
          some ("event: message\ndata: " ++ message.getD "" ++ "\n\n")

/-- Model of `server.handleMCPMessages` after the transport-level
preamble (CORS headers, OPTIONS, body read — all byte/transport I/O):
validate the session id, run the engine on the envelope, answer HTTP 202,
and push the serialized engine response (nil for notifications) to the
session's stream.  Returns the HTTP status and the SSE event written, if
any.  (The Go 500 branch requires `handleMCPRequest` to return a non-nil
error, which only a marshalling failure can produce; the model's engine
never fails, so that branch is unreachable here.) -/
def handleMCPMessages (env : String → String)
    (doHTTP : HTTPRequest → Except String (Nat × String))
    (shape : String → Except String JSONValue)
    (cfg : Config) (spec : OpenAPISpec)
    (st : ServerState) (sessionID : String) (request : MCPRequest) :
    Nat × Option String :=
  if sessionID == "" then (400, none)
  else
    match st.sessions.lookup sessionID with
    | none => (400, none)
    | some _ =>
        let (respOpt, _) := handleMCPRequestCore env doHTTP shape cfg spec request
        let responseBytes := respOpt.map serializeResponse
        (202, pushMessageToSession st sessionID responseBytes)

/-- The tool name after `handleToolCall`'s `mcp_`-prefixed-name
normalization (`strings.TrimPrefix(name, "mcp_")` guarded by
`strings.HasPrefix`). -/
def strippedToolName (name : String) : String :=
  if strHasLead "mcp_" name then strDrop 4 name else name

/-! Concrete fixtures used to exercise the model (an OpenAPI document
with one `GET /users` operation secured by an apiKey scheme, a trivial
transport/shaper, and an SSE session table with one live connection). -/

/-- A plain string schema. -/
def schema0 : Schema := .mk "string" "" [] [] none ""

/-- A `GET /users` operation without parameters, secured by `MyAuth`. -/
def opGetUsers : Operation :=
  { summary := "", description := "List users", operationID := "", tags := [],
    parameters := [],
    requestBody := { description := "", required := false, content := none },
    responses := [], security := [[("MyAuth", [])]] }

/-- An apiKey security scheme injecting the `X-API-Key` header. -/
def apiKeyScheme : SecurityScheme :=
  { type := "apiKey", scheme := "", name := "X-API-Key", inLoc := "header" }

/-- The fixture OpenAPI document. -/
def spec0 : OpenAPISpec :=
  { openapi := "3.0.0",
    servers := [{ url := "https://api.example.com/v1", description := "" }],
    paths := [("/users", [("get", opGetUsers)])],
    components := { securitySchemes := [("MyAuth", apiKeyScheme)] },
    security := [] }

/-- Global configuration with one default header that collides with the
credential header. -/
def global0 : GlobalConfig :=
  { timeout := 30, maxRequestSize := "",
    defaultHeaders := [("X-API-Key", "default-value")] }

/-- Full fixture configuration. -/
def cfg0 : Config :=
  { server := { port := 8088, host := "0.0.0.0", mode := "sse" }, global := global0 }

/-- A process environment holding only the fixture API key. -/
def env0 : String → String :=
  fun name => if name == "MYAUTH_API_KEY" then "secret-key" else ""

/-- A stub HTTP transport answering 200 with body "null". -/
def doHTTP0 : HTTPRequest → Except String (Nat × String) :=
  fun _ => .ok (200, "null")

/-- A stub response shaper returning JSON null. -/
def shape0 : String → Except String JSONValue :=
  fun _ => .ok .null

/-- A minimal document with just a base URL (for direct request-builder
calls). -/
def specX : OpenAPISpec :=
  { openapi := "3.0.0", servers := [{ url := "https://x", description := "" }],
    paths := [], components := { securitySchemes := [] }, security := [] }

/-- A required path parameter `id`. -/
def paramId : Parameter :=
  { name := "id", inLoc := "path", description := "", required := true,
    schema := schema0 }

/-- A `GET /users/{id}`-style operation requiring the path parameter. -/
def opGetUser : Operation :=
  { summary := "", description := "", operationID := "", tags := [],
    parameters := [paramId],
    requestBody := { description := "", required := false, content := none },
    responses := [], security := [] }

/-- A POST operation that declares NO request-body content (nil content
map) and no parameters. -/
def opPostNoContent : Operation :=
  { summary := "", description := "", operationID := "", tags := [],
    parameters := [],
    requestBody := { description := "", required := false, content := none },
    responses := [], security := [] }

/-- A POST operation that declares request-body content but no
body-location parameters. -/
def opPostWithContent : Operation :=
  { summary := "", description := "", operationID := "", tags := [],
    parameters := [],
    requestBody := { description := "", required := false,
                     content := some [("application/json", { schema := schema0 })] },
    responses := [], security := [] }

/-- An optional body-location parameter `note`. -/
def paramNote : Parameter :=
  { name := "note", inLoc := "body", description := "", required := false,
    schema := schema0 }

/-- A POST operation that declares request-body content and ONE optional
body-location parameter (left unsupplied by the witness call). -/
def opPostOptionalBody : Operation :=
  { summary := "", description := "", operationID := "", tags := [],
    parameters := [paramNote],
    requestBody := { description := "", required := false,
                     content := some [("application/json", { schema := schema0 })] },
    responses := [], security := [] }

/-- The request `buildHTTPRequest` produces for `opPostNoContent` (empty
body despite supplied parameters). -/
def reqPostNoContent : HTTPRequest :=
  { method := "POST", url := "https://x/things",
    headers := [("Content-Type", "application/json")], body := none }

/-- The request `buildHTTPRequest` produces for `opPostWithContent` (the
whole parameter mapping as body). -/
def reqPostWithContent : HTTPRequest :=
  { method := "POST", url := "https://x/things",
    headers := [("Content-Type", "application/json")],
    body := some (.obj [("a", .num 1)]) }

/-- The outbound request `HandleRequest` hands to the transport for the
fixture `getUsers` call: the credential header has been overwritten by
the default header. -/
def finalReqGetUsers : HTTPRequest :=
  { method := "GET", url := "https://api.example.com/v1/users",
    headers := [("X-Api-Key", "default-value")], body := none }

/-- A `tools/call` envelope with the NUMERIC id 42. -/
def reqToolCall42 : MCPRequest :=
  { jsonrpc := "2.0", id := some (.num 42), method := "tools/call",
    params := some (.obj [("name", .str "getUsers"), ("parameters", .obj [])]) }

/-- A `tools/call` envelope naming a tool that resolves to no
operation. -/
def reqUnknownTool : MCPRequest :=
  { jsonrpc := "2.0", id := some (.str "c2"), method := "tools/call",
    params := some (.obj [("name", .str "noSuchTool"), ("parameters", .obj [])]) }

/-- A `notifications/initialized` notification (no id). -/
def notifInitialized : MCPRequest :=
  { jsonrpc := "2.0", id := none, method := "notifications/initialized",
    params := some (.obj []) }

/-- The fixture SSE session bound to client `c1`. -/
def sess1 : MCPSession :=
  { id := "s1", clientID := "c1", endpoint := "/messages/?session_id=s1",
    createdAt := 0, lastActivity := 0 }

/-- The fixture SSE connection for client `c1`. -/
def conn1 : SSEConnection :=
  { id := "c1", remoteAddr := "127.0.0.1:52000", sessionID := "s1" }

/-- An SSE server state with one session and its live connection. -/
def st0 : ServerState :=
  { sessions := [("s1", sess1)], sseConnections := [("c1", conn1)] }

/-- A jq-parse stub compiling every expression to the identity filter. -/
def jqIdParse : String → Except String JQQuery :=
  fun _ => .ok (fun v => [.ok v])

/-- An unmarshal stub decoding every body to the number 7. -/
def unmarshal7 : String → Except String JSONValue :=
  fun _ => .ok (.num 7)

/-- A template-engine stub (unused by the jq mode). -/
def tmplNone : String → JSONValue → Except String String :=
  fun _ _ => .ok ""

/-! Theorems. -/

/-- The empty string prepended to a string is that string. -/
theorem empty_append_str (s : String) : "" ++ s = s := by
  cases s
  rfl

/-- A string of length zero is the empty string. -/
theorem str_length_zero (s : String) (h : s.length = 0) : s = "" := by
  cases s with
  | mk data =>
      cases data with
      | nil => rfl
      | cons c cs => simp [String.length] at h

/-- The collect-loop of `generateOperationID` concatenates to the same
string as filtering out placeholders and title-casing every remaining
segment (empty segments title-case to the empty string, so dropping them
does not change the concatenation). -/
theorem strJoin_genOpIDParts (ps : List String) :
    strJoin (genOpIDParts ps) =
      strJoin ((ps.filter (fun s => !(isPathPlaceholder s))).map goTitle) := by
  induction ps with
  | nil => rfl
  | cons p rest ih =>
      by_cases hp : isPathPlaceholder p
      · simp [genOpIDParts, hp, ih]
      · by_cases hl : p.length > 0
        · simp [genOpIDParts, hp, hl, strJoin, ih]
        · have hp0 : p = "" := str_length_zero p (Nat.eq_zero_of_not_pos hl)
          subst hp0
          simp only [genOpIDParts, isPathPlaceholder] at *
          simp [hp, strJoin, goTitle, goTitleChars, ih, empty_append_str]

/-- C6: for every (HTTP method, path) pair, the generated identifier is
exactly: strip the leading slash, split the path on "/", drop every
placeholder segment, title-case each remaining segment, concatenate and
prepend the lower-cased verb; in particular `GET /users/{id}` yields
`getUsers` and `POST /users` yields `postUsers`. -/
theorem claim_C6_generateOperationID :
    (∀ method path, generateOperationID method path = generateOperationIDSpec method path) ∧
    generateOperationID "GET" "/users/\x7bid\x7d" = "getUsers" ∧
    generateOperationID "POST" "/users" = "postUsers" := by
  refine ⟨fun method path => ?_, by decide, by decide⟩
  unfold generateOperationID generateOperationIDSpec
  rw [strJoin_genOpIDParts]

/-- C10: for every stdio request outcome that is a timeout or a handler
failure, `processRequest` emits a freshly built JSON-RPC error envelope
(code -32001 resp. -32603) whose id is the JSON string "" regardless of
the raw request line, so the original request id is not echoed. -/
theorem claim_C10_error_id_blank :
    ∀ (taskData errMessage : String),
      (∃ r, processRequestEmits taskData .timeout = some (.inl r) ∧
        r.id = .str "" ∧ r.error = some { code := -32001, message := "Request timed out" }) ∧
      (∃ r, processRequestEmits taskData (.failed errMessage) = some (.inl r) ∧
        r.id = .str "" ∧ (r.error.map MCPError.code) = some (-32603)) := by
  intro taskData errMessage
  exact ⟨⟨_, rfl, rfl, rfl⟩, ⟨_, rfl, rfl, rfl⟩⟩

/-- C1 (code bug): the tool-call pipeline passes `request.GetIDString()`
to the response constructors, so a request with the NUMERIC id 42 gets a
response whose id is the JSON STRING "42" — the id is not echoed
bit-for-bit — while a string id is echoed unchanged. -/
theorem claim_C1_id_coerced_to_string :
    ((handleToolCall env0 doHTTP0 shape0 global0 spec0 reqToolCall42).1).id = .str "42" ∧
    (JSONValue.str "42" ≠ JSONValue.num 42) ∧
    ((handleToolCall env0 doHTTP0 shape0 global0 spec0
        { reqToolCall42 with id := some (.str "abc") }).1).id = .str "abc" := by
  refine ⟨rfl, fun h => ?_, rfl⟩
  cases h

/-- C2 (counterexample): a `tools/call` for the unknown tool name
`noSuchTool` is NOT answered with a `tools/call` result carrying
`isError: true`; the reply is a JSON-RPC error envelope with code -32603
and no result at all (and no outbound HTTP call is made). -/
theorem claim_C2_counterexample :
    ((handleToolCall env0 doHTTP0 shape0 global0 spec0 reqUnknownTool).1).error =
      some { code := -32603,
             message := "内部错误: " ++ ("查找操作失败: " ++ ("未找到操作: " ++ "noSuchTool")) } ∧
    ((handleToolCall env0 doHTTP0 shape0 global0 spec0 reqUnknownTool).1).result = none ∧
    (handleToolCall env0 doHTTP0 shape0 global0 spec0 reqUnknownTool).2 = [] := by
  exact ⟨rfl, rfl, rfl⟩

/-- C4 (counterexample): a notification (`notifications/initialized`, no
id) POSTed to the message endpoint with a valid session gets HTTP 202,
but a `message` event IS pushed on the session's SSE stream — with an
empty data line, because `pushMessageToSession` is called unconditionally
with the engine's nil response. -/
theorem claim_C4_counterexample :
    handleMCPMessages env0 doHTTP0 shape0 cfg0 spec0 st0 "s1" notifInitialized =
      (202, some "event: message\ndata: \n\n") ∧
    (some "event: message\ndata: \n\n" ≠ (none : Option String)) := by
  exact ⟨rfl, fun h => by cases h⟩

/-- C5 (counterexample): a POST whose operation declares NO request-body
content (nil content map) and no body parameters, called with the
non-empty parameter mapping `{a: 1}`, produces a request with an EMPTY
body — the parameter mapping is not serialized as the body, contrary to
the claim. -/
theorem claim_C5_counterexample :
    buildHTTPRequest specX opPostNoContent "POST" "/things" [("a", .num 1)] =
      .ok reqPostNoContent ∧
    reqPostNoContent.body = none ∧
    ((none : Option JSONValue) ≠ some (.obj [("a", .num 1)])) := by
  exact ⟨rfl, rfl, fun h => by cases h⟩

/-- Replacing an existing key in an association list makes lookup of that
key find the new value. -/
theorem lookup_map_replace (ck v : String) :
    ∀ (h : List (String × String)), h.any (fun kv => kv.1 == ck) = true →
      (h.map (fun kv => if kv.1 == ck then (ck, v) else kv)).lookup ck = some v := by
  intro h
  induction h with
  | nil => intro hAny; simp at hAny
  | cons kv t ih =>
      intro hAny
      cases hEq : (kv.1 == ck) with
      | true =>
          simp only [List.map]
          rw [if_pos hEq]
          simp [List.lookup]
      | false =>
          have he3 : (ck == kv.1) = false :=
            beq_eq_false_iff_ne.mpr (Ne.symm (beq_eq_false_iff_ne.mp hEq))
          have hAny2 : t.any (fun kv => kv.1 == ck) = true := by
            simpa [hEq] using hAny
          simp only [List.map]
          rw [if_neg (by simp [hEq])]
          simp only [List.lookup, he3]
          exact ih hAny2

/-- Appending a fresh key to an association list makes lookup of that key
find the appended value. -/
theorem lookup_append_fresh (ck v : String) :
    ∀ (h : List (String × String)), h.any (fun kv => kv.1 == ck) = false →
      (h ++ [(ck, v)]).lookup ck = some v := by
  intro h
  induction h with
  | nil => intro hAny; simp [List.lookup]
  | cons kv t ih =>
      intro hAny
      have hEq : (kv.1 == ck) = false := by
        by_contra hc
        simp only [Bool.not_eq_false] at hc
        simp [hc] at hAny
      have he3 : (ck == kv.1) = false :=
        beq_eq_false_iff_ne.mpr (Ne.symm (beq_eq_false_iff_ne.mp hEq))
      have hAny2 : t.any (fun kv => kv.1 == ck) = false := by
        simpa [hEq] using hAny
      simp only [List.cons_append, List.lookup, he3]
      exact ih hAny2

/-- After `Header.Set`, getting the same header name yields the value
just set, whatever was there before. -/
theorem headerGet_headerSet (h : List (String × String)) (k v : String) :
    headerGet (headerSet h k v) k = some v := by
  unfold headerGet headerSet
  by_cases hAny : h.any (fun kv => kv.1 == canonicalMIMEHeaderKey k) = true
  · simp only [hAny, if_true]
    exact lookup_map_replace (canonicalMIMEHeaderKey k) v h hAny
  · have hAny2 : h.any (fun kv => kv.1 == canonicalMIMEHeaderKey k) = false :=
      Bool.not_eq_true _ ▸ eq_false_of_ne_true hAny
    simp only [hAny2, Bool.false_eq_true, if_false]
    exact lookup_append_fresh (canonicalMIMEHeaderKey k) v h hAny2

/-- C3 (counterexample): with the default header `X-API-Key:
default-value` configured and the environment credential `secret-key`
present, the request actually sent for the fixture `getUsers` call
carries `X-API-Key: default-value` — the default header, not the
credential, wins, because authentication runs BEFORE the default-header
pass. -/
theorem claim_C3_counterexample :
    ((HandleRequest env0 doHTTP0 shape0 global0 spec0
        { name := "getUsers", parameters := [] }).2.map
      (fun r => headerGet r.headers "X-API-Key")) = [some "default-value"] ∧
    env0 "MYAUTH_API_KEY" = "secret-key" ∧
    (some "default-value" ≠ some ("secret-key" : String)) := by
  refine ⟨rfl, rfl, by decide⟩

/-- C3 (as the code has it): during a tool invocation the AuthBinder
credential injection is applied FIRST and the configured default headers
AFTER it, so when both set the same header the default header wins: for
any single configured default header (k, v), the request handed to the
transport carries value v for k. -/
theorem claim_C3_auth_then_defaults :
    ∀ (env : String → String) (doHTTP : HTTPRequest → Except String (Nat × String))
      (shape : String → Except String JSONValue) (cfg : GlobalConfig)
      (spec : OpenAPISpec) (params : ToolCallParams) (k v : String) (r : HTTPRequest),
      cfg.defaultHeaders = [(k, v)] →
      (HandleRequest env doHTTP shape cfg spec params).2 = [r] →
      headerGet r.headers k = some v := by
  intro env doHTTP shape cfg spec params k v r hDef hCalls
  unfold HandleRequest at hCalls
  split at hCalls
  · exact absurd hCalls (by simp)
  · split at hCalls
    · exact absurd hCalls (by simp)
    · split at hCalls
      · exact absurd hCalls (by simp)
      · rename_i authed hA
        simp only [] at hCalls
        split at hCalls <;>
          · simp only [List.cons.injEq, and_true] at hCalls
            rw [hDef] at hCalls
            rw [← hCalls]
            exact headerGet_headerSet authed.headers k v

/-- Witness for the C3 order theorem at the fixture call: the sent
request's `X-API-Key` header is the default value. -/
theorem claim_C3_auth_then_defaults_witness :
    headerGet finalReqGetUsers.headers "X-API-Key" = some "default-value" :=
  claim_C3_auth_then_defaults env0 doHTTP0 shape0 global0 spec0
    { name := "getUsers", parameters := [] } "X-API-Key" "default-value"
    finalReqGetUsers rfl rfl

/-- When some required path-location parameter is missing from the call,
the path-substitution pass fails with a missing-parameter error (for the
first such parameter in declaration order), whatever the URL
accumulated so far. -/
theorem substPathParams_missing (params : List (String × JSONValue)) :
    ∀ (ps : List Parameter) (p : Parameter), p ∈ ps → p.inLoc = "path" →
      p.required = true → params.lookup p.name = none →
      ∀ url, ∃ q, q ∈ ps ∧ q.inLoc = "path" ∧ q.required = true ∧
        params.lookup q.name = none ∧
        substPathParams params ps url = .error ("缺少必需的路径参数: " ++ q.name) := by
  intro ps
  induction ps with
  | nil => intro p hp; cases hp
  | cons q0 rest ih =>
      intro p hp hIn hReq hMiss url
      by_cases hq : q0.inLoc = "path"
      · have hqb : (q0.inLoc == "path") = true := beq_iff_eq.mpr hq
        cases hlk : params.lookup q0.name with
        | none =>
            cases hr : q0.required with
            | true =>
                refine ⟨q0, List.mem_cons_self q0 rest, hq, hr, hlk, ?_⟩
                simp only [substPathParams, hqb, hlk, hr, if_true]
            | false =>
                have hpr : p ∈ rest := by
                  rcases List.mem_cons.mp hp with h | h
                  · subst h; rw [hReq] at hr; cases hr
                  · exact h
                obtain ⟨q, hqm, h1, h2, h3, h4⟩ := ih p hpr hIn hReq hMiss url
                refine ⟨q, List.mem_cons_of_mem q0 hqm, h1, h2, h3, ?_⟩
                simp only [substPathParams, hqb, hlk, hr, if_true, Bool.false_eq_true,
                  if_false]
                exact h4
        | some value =>
            have hpr : p ∈ rest := by
              rcases List.mem_cons.mp hp with h | h
              · subst h; rw [hlk] at hMiss; cases hMiss
              · exact h
            obtain ⟨q, hqm, h1, h2, h3, h4⟩ :=
              ih p hpr hIn hReq hMiss
                (replaceAll url ("\x7b" ++ q0.name ++ "\x7d") (goFormat value))
            refine ⟨q, List.mem_cons_of_mem q0 hqm, h1, h2, h3, ?_⟩
            simp only [substPathParams, hqb, hlk, if_true]
            exact h4
      · have hqb : (q0.inLoc == "path") = false := beq_eq_false_iff_ne.mpr hq
        have hpr : p ∈ rest := by
          rcases List.mem_cons.mp hp with h | h
          · subst h; exact absurd hIn hq
          · exact h
        obtain ⟨q, hqm, h1, h2, h3, h4⟩ := ih p hpr hIn hReq hMiss url
        refine ⟨q, List.mem_cons_of_mem q0 hqm, h1, h2, h3, ?_⟩
        simp only [substPathParams, hqb, Bool.false_eq_true, if_false]
        exact h4

/-- C7: a call that omits a required path-location parameter never gets a
request out of the builder — the builder returns an error, and (whenever
the base URL is configured, so the earlier configuration check passes)
specifically a missing-path-parameter error; no request with a literal
placeholder in its URL is ever produced. -/
theorem claim_C7_missing_path_param :
    ∀ (spec : OpenAPISpec) (op : Operation) (method path : String)
      (params : List (String × JSONValue)) (p : Parameter),
      p ∈ op.parameters → p.inLoc = "path" → p.required = true →
      params.lookup p.name = none →
      (∃ e, buildHTTPRequest spec op method path params = .error e) ∧
      (GetBaseURL spec ≠ "" →
        ∃ q, q ∈ op.parameters ∧ q.inLoc = "path" ∧ q.required = true ∧
          params.lookup q.name = none ∧
          buildHTTPRequest spec op method path params =
            .error ("缺少必需的路径参数: " ++ q.name)) := by
  intro spec op method path params p hp hIn hReq hMiss
  by_cases hB : GetBaseURL spec = ""
  · have hBb : (GetBaseURL spec == "") = true := beq_iff_eq.mpr hB
    constructor
    · exact ⟨"OpenAPI规范中未定义服务器URL", by simp only [buildHTTPRequest, hBb, if_true]⟩
    · intro hne; exact absurd hB hne
  · have hBb : (GetBaseURL spec == "") = false := beq_eq_false_iff_ne.mpr hB
    obtain ⟨q, hqm, h1, h2, h3, h4⟩ :=
      substPathParams_missing params op.parameters p hp hIn hReq hMiss
        (GetBaseURL spec ++ path)
    constructor
    · refine ⟨"缺少必需的路径参数: " ++ q.name, ?_⟩
      simp only [buildHTTPRequest, hBb, Bool.false_eq_true, if_false, h4]
    · intro _
      refine ⟨q, hqm, h1, h2, h3, ?_⟩
      simp only [buildHTTPRequest, hBb, Bool.false_eq_true, if_false, h4]

/-- Witness for C7 at the fixture operation `GET /users/{id}` with an
empty call: the builder returns the missing-parameter error for `id`. -/
theorem claim_C7_missing_path_param_witness :
    buildHTTPRequest specX opGetUser "GET" "/users/\x7bid\x7d" [] =
      .error ("缺少必需的路径参数: " ++ "id") := by
  have h :=
    (claim_C7_missing_path_param specX opGetUser "GET" "/users/\x7bid\x7d" [] paramId
      (by simp [opGetUser]) rfl rfl rfl).2 (by decide)
  rfl

/-- When no declared body-location parameter is supplied by the call,
collecting body parameters either leaves the accumulator unchanged
(every unsupplied one was optional) or fails on a required one. -/
theorem collectBodyParams_unsupplied (params : List (String × JSONValue)) :
    ∀ (ps : List Parameter) (acc : List (String × JSONValue)),
      (∀ p ∈ ps, p.inLoc = "body" → params.lookup p.name = none) →
      collectBodyParams params ps acc = .ok acc ∨
        ∃ e, collectBodyParams params ps acc = .error e := by
  intro ps
  induction ps with
  | nil => intro acc _; left; rfl
  | cons p rest ih =>
      intro acc h
      by_cases hb : p.inLoc = "body"
      · have hbb : (p.inLoc == "body") = true := beq_iff_eq.mpr hb
        have hlk : params.lookup p.name = none := h p (List.mem_cons_self p rest) hb
        cases hr : p.required with
        | true =>
            right
            refine ⟨"缺少必需的请求体参数: " ++ p.name, ?_⟩
            simp only [collectBodyParams, hbb, if_true, hlk, hr]
        | false =>
            have ht := ih acc (fun q hq => h q (List.mem_cons_of_mem p hq))
            simp only [collectBodyParams, hbb, if_true, hlk, hr,
              Bool.false_eq_true, if_false]
            exact ht
      · have hbb : (p.inLoc == "body") = false := beq_eq_false_iff_ne.mpr hb
        simp only [collectBodyParams, hbb, Bool.false_eq_true, if_false]
        exact ih acc (fun q hq => h q (List.mem_cons_of_mem p hq))

/-- C5 (as the code has it): for a body-carrying method, whenever the
builder produces a request: if the operation declares request-body
content, no declared body-location parameter captures a value (whether
none are declared or the caller supplied none of them), and the caller
supplied a non-empty parameter mapping, then the request's body is the
entire parameter mapping; and if the operation declares no request-body
content at all, the body is empty regardless of the supplied
parameters. -/
theorem claim_C5_body_fallback :
    ∀ (spec : OpenAPISpec) (op : Operation) (method path : String)
      (params : List (String × JSONValue)) (req : HTTPRequest),
      (method = "POST" ∨ method = "PUT" ∨ method = "PATCH") →
      buildHTTPRequest spec op method path params = .ok req →
      (∀ (content : List (String × MediaType)),
        op.requestBody.content = some content →
        (∀ p ∈ op.parameters, p.inLoc = "body" → params.lookup p.name = none) →
        params ≠ [] →
        req.body = some (.obj params)) ∧
      (op.requestBody.content = none → req.body = none) := by
  intro spec op method path params req hM hBuild
  have hGet : (method == "GET" || method == "DELETE") = false := by
    rcases hM with h | h | h <;> subst h <;> decide
  have hPost : (method == "POST" || method == "PUT" || method == "PATCH") = true := by
    rcases hM with h | h | h <;> subst h <;> decide
  by_cases hB : (GetBaseURL spec == "") = true
  · simp only [buildHTTPRequest, hB, if_true] at hBuild
    cases hBuild
  · have hBb : (GetBaseURL spec == "") = false := eq_false_of_ne_true hB
    simp only [buildHTTPRequest, hBb, Bool.false_eq_true, if_false] at hBuild
    cases hS : substPathParams params op.parameters (GetBaseURL spec ++ path) with
    | error e => rw [hS] at hBuild; cases hBuild
    | ok url1 =>
        rw [hS] at hBuild
        simp only [hGet, Bool.false_eq_true, if_false, hPost, if_true] at hBuild
        constructor
        · intro content hC hUnsup hNe
          simp only [hC] at hBuild
          rcases collectBodyParams_unsupplied params op.parameters [] hUnsup with
            hColl | ⟨e, hColl⟩
          · simp only [hColl] at hBuild
            have hLen : (params.length > 0) := List.length_pos.mpr hNe
            split at hBuild
            · cases hBuild; rfl
            · rename_i hcond
              simp [hLen] at hcond
          · simp only [hColl] at hBuild
            cases hBuild
        · intro hC
          simp only [hC] at hBuild
          cases hBuild
          rfl

/-- Witness for the C5 body rules: a POST declaring content and one
OPTIONAL body parameter, called with `{a: 1}` (the body parameter left
unsupplied), carries the whole mapping as its body; a POST declaring no
content, called the same way, carries no body. -/
theorem claim_C5_body_fallback_witness :
    reqPostWithContent.body = some (.obj [("a", JSONValue.num 1)]) ∧
    reqPostNoContent.body = none := by
  constructor
  · exact (claim_C5_body_fallback specX opPostOptionalBody "POST" "/things"
      [("a", .num 1)] reqPostWithContent (Or.inl rfl) rfl).1
      [("application/json", { schema := schema0 })] rfl
      (by
        intro p hp hb
        have hp2 : p = paramNote := by
          simpa [opPostOptionalBody] using hp
        subst hp2
        rfl)
      (by intro h; cases h)
  · exact (claim_C5_body_fallback specX opPostNoContent "POST" "/things"
      [("a", .num 1)] reqPostNoContent (Or.inl rfl) rfl).2 rfl

/-- C8: for every completed HTTP call, 2xx yields a success result whose
payload is the shaped body; 4xx an error result tagged as client error;
5xx an error result tagged as server error; and every non-2xx result
carries the numeric status and the raw body. -/
theorem claim_C8_status_policy :
    ∀ (shape : String → Except String JSONValue) (status : Nat) (body : String),
      (200 ≤ status → status < 300 →
        ∀ v, shape body = .ok v →
          processHTTPResponse shape status body =
            .ok { type := "success", status := "success", result := v }) ∧
      (400 ≤ status → status < 500 →
        processHTTPResponse shape status body =
          .ok { type := "error", status := "error",
                result := .obj [("message", .str "客户端错误"), ("code", .num status),
                                ("body", .str body)] }) ∧
      (500 ≤ status →
        processHTTPResponse shape status body =
          .ok { type := "error", status := "error",
                result := .obj [("message", .str "服务器错误"), ("code", .num status),
                                ("body", .str body)] }) ∧
      ((status < 200 ∨ 300 ≤ status) →
        ∃ msg, processHTTPResponse shape status body =
          .ok { type := "error", status := "error",
                result := .obj [("message", .str msg), ("code", .num status),
                                ("body", .str body)] }) := by
  intro shape status body
  refine ⟨?_, ?_, ?_, ?_⟩
  · intro h1 h2 v hv
    unfold processHTTPResponse
    rw [if_neg (by omega)]
    rw [hv]
  · intro h1 h2
    unfold processHTTPResponse
    rw [if_pos (by omega), if_pos (by omega)]
  · intro h1
    unfold processHTTPResponse
    rw [if_pos (by omega), if_neg (by omega), if_pos (by omega)]
  · intro h1
    unfold processHTTPResponse
    rw [if_pos h1]
    exact ⟨_, rfl⟩

/-- Witness for the status-code policy at statuses 200, 404 and 503 with
the stub shaper. -/
theorem claim_C8_status_policy_witness :
    processHTTPResponse unmarshal7 200 "raw" =
      .ok { type := "success", status := "success", result := .num 7 } ∧
    processHTTPResponse unmarshal7 404 "nf" =
      .ok { type := "error", status := "error",
            result := .obj [("message", .str "客户端错误"), ("code", .num 404),
                            ("body", .str "nf")] } ∧
    processHTTPResponse unmarshal7 503 "sv" =
      .ok { type := "error", status := "error",
            result := .obj [("message", .str "服务器错误"), ("code", .num 503),
                            ("body", .str "sv")] } :=
  ⟨(claim_C8_status_policy unmarshal7 200 "raw").1 (by omega) (by omega) (.num 7) rfl,
   (claim_C8_status_policy unmarshal7 404 "nf").2.1 (by omega) (by omega),
   (claim_C8_status_policy unmarshal7 503 "sv").2.2.1 (by omega)⟩

/-- An error element anywhere in the iterator output makes the fold
fail. -/
theorem jqIterate_mem_error :
    ∀ (outs : List (Except String JSONValue)) (e : String),
      Except.error e ∈ outs → ∀ last, ∃ msg, jqIterate outs last = .error msg := by
  intro outs
  induction outs with
  | nil => intro e h; cases h
  | cons head t ih =>
      intro e h last
      cases head with
      | error e0 => exact ⟨"执行JQ表达式失败: " ++ e0, rfl⟩
      | ok v =>
          have ht : Except.error e ∈ t := by
            rcases List.mem_cons.mp h with h1 | h2
            · cases h1
            · exact h2
          exact ih e ht v

/-- An all-values iterator output folds to the last value (or the initial
accumulator when nothing is emitted). -/
theorem jqIterate_all_ok :
    ∀ (vals : List JSONValue) (last : JSONValue),
      jqIterate (vals.map .ok) last = .ok (vals.getLastD last) := by
  intro vals
  induction vals with
  | nil => intro last; rfl
  | cons v t ih =>
      intro last
      rw [List.getLastD_cons]
      exact ih v

/-- C9: in query-expression ("jq") mode the shaper treats an empty
expression as a hard error; otherwise it parses the body as JSON, runs
the compiled expression and returns the LAST value the expression emits
(null when it emits nothing), and an expression that emits an error
yields an error result. -/
theorem claim_C9_jq_mode :
    ∀ (gojqParse : String → Except String JQQuery)
      (unmarshal : String → Except String JSONValue)
      (tmplExec : String → JSONValue → Except String String)
      (data expression template : String),
      (expression = "" →
        Transform gojqParse unmarshal tmplExec data
          (some { type := "jq", expression := expression, template := template }) =
          .error "JQ表达式不能为空") ∧
      (expression ≠ "" →
        ∀ (query : JQQuery) (input : JSONValue),
          gojqParse expression = .ok query →
          unmarshal data = .ok input →
          ((∃ e, Except.error e ∈ query input) →
            ∃ msg, Transform gojqParse unmarshal tmplExec data
              (some { type := "jq", expression := expression, template := template }) =
              .error msg) ∧
          (∀ (vals : List JSONValue), query input = vals.map .ok →
            Transform gojqParse unmarshal tmplExec data
              (some { type := "jq", expression := expression, template := template }) =
              .ok (vals.getLastD .null))) := by
  intro gojqParse unmarshal tmplExec data expression template
  constructor
  · intro h
    subst h
    rfl
  · intro hne query input hq hi
    have hneb : (expression == "") = false := beq_eq_false_iff_ne.mpr hne
    constructor
    · intro ⟨e, he⟩
      obtain ⟨msg, hmsg⟩ := jqIterate_mem_error (query input) e he .null
      refine ⟨msg, ?_⟩
      simp only [Transform, transformWithJQ, hneb, Bool.false_eq_true, if_false,
        hq, hi]
      exact hmsg
    · intro vals hvals
      have h := jqIterate_all_ok vals .null
      simp only [Transform, transformWithJQ, hneb, Bool.false_eq_true, if_false,
        hq, hi, hvals]
      exact h

/-- Witness for the jq mode: the empty expression errors; the identity
filter on a body decoding to 7 returns 7 (the last emitted value). -/
theorem claim_C9_jq_mode_witness :
    Transform jqIdParse unmarshal7 tmplNone "body"
      (some { type := "jq", expression := "", template := "" }) =
      .error "JQ表达式不能为空" ∧
    Transform jqIdParse unmarshal7 tmplNone "body"
      (some { type := "jq", expression := ".", template := "" }) = .ok (.num 7) := by
  constructor
  · exact (claim_C9_jq_mode jqIdParse unmarshal7 tmplNone "body" "" "").1 rfl
  · exact ((claim_C9_jq_mode jqIdParse unmarshal7 tmplNone "body" "." "").2
      (by decide) (fun v => [.ok v]) (.num 7) rfl rfl).2 [.num 7] rfl

/-- With an unknown tool name the handler pipeline fails at resolution
and hands no request to the transport. -/
theorem HandleRequest_not_found :
    ∀ (env : String → String) (doHTTP : HTTPRequest → Except String (Nat × String))
      (shape : String → Except String JSONValue) (cfg : GlobalConfig)
      (spec : OpenAPISpec) (tp : ToolCallParams),
      findOpInPaths tp.name spec.paths = none →
      HandleRequest env doHTTP shape cfg spec tp =
        (.error ("查找操作失败: " ++ ("未找到操作: " ++ tp.name)), []) := by
  intro env doHTTP shape cfg spec tp h
  unfold HandleRequest GetOperationByID
  rw [h]

/-- C2 (as the code has it): a `tools/call` whose (prefix-stripped) tool
name resolves to no operation is answered with a JSON-RPC ERROR envelope
carrying code -32603 and the wrapped lookup failure — not with a
`tools/call` result — and no outbound HTTP request is made. -/
theorem claim_C2_unknown_tool :
    ∀ (env : String → String) (doHTTP : HTTPRequest → Except String (Nat × String))
      (shape : String → Except String JSONValue) (cfg : GlobalConfig)
      (spec : OpenAPISpec) (request : MCPRequest) (tp : ToolCallParams),
      ParseToolCallParams request.params = .ok tp →
      findOpInPaths (strippedToolName tp.name) spec.paths = none →
      handleToolCall env doHTTP shape cfg spec request =
        (NewErrorResponse (.str request.GetIDString) (-32603)
          ("内部错误: " ++ ("查找操作失败: " ++
            ("未找到操作: " ++ strippedToolName tp.name))), []) := by
  intro env doHTTP shape cfg spec request tp hParse hFind
  unfold handleToolCall
  rw [hParse]
  by_cases hm : strHasLead "mcp_" tp.name
  · have hs : strippedToolName tp.name = strDrop 4 tp.name := by
      simp [strippedToolName, hm]
    rw [hs] at hFind
    have hH := HandleRequest_not_found env doHTTP shape cfg spec
      { tp with name := strDrop 4 tp.name } hFind
    simp only [hm, if_true, hH, hs]
  · have hs : strippedToolName tp.name = tp.name := by
      simp [strippedToolName, hm]
    rw [hs] at hFind
    have hH := HandleRequest_not_found env doHTTP shape cfg spec tp hFind
    simp only [hm, Bool.false_eq_true, if_false, hH, hs]

/-- Witness for C2 at the fixture document and the unknown tool
`noSuchTool`: the -32603 error envelope comes back and the call list is
empty. -/
theorem claim_C2_unknown_tool_witness :
    handleToolCall env0 doHTTP0 shape0 global0 spec0 reqUnknownTool =
      (NewErrorResponse (.str reqUnknownTool.GetIDString) (-32603)
        ("内部错误: " ++ ("查找操作失败: " ++
          ("未找到操作: " ++ strippedToolName "noSuchTool"))), []) :=
  claim_C2_unknown_tool env0 doHTTP0 shape0 global0 spec0 reqUnknownTool
    { name := "noSuchTool", parameters := [] } rfl rfl

/-- C4 (as the code has it): a request whose method is one of the
notification methods, POSTed to the message endpoint with a valid
session whose client has a registered SSE connection, gets HTTP 202 and
a `message` event WITH EMPTY DATA pushed on the session's stream (the
engine's nil response is formatted into the event unconditionally). -/
theorem claim_C4_notification_push :
    ∀ (env : String → String) (doHTTP : HTTPRequest → Except String (Nat × String))
      (shape : String → Except String JSONValue) (cfg : Config) (spec : OpenAPISpec)
      (st : ServerState) (sessionID : String) (request : MCPRequest)
      (sess : MCPSession),
      sessionID ≠ "" →
      st.sessions.lookup sessionID = some sess →
      (st.sseConnections.lookup sess.clientID).isSome = true →
      request.jsonrpc = "2.0" →
      (request.method = "notifications/initialized" ∨
        request.method = "notifications/cancelled") →
      handleMCPMessages env doHTTP shape cfg spec st sessionID request =
        (202, some "event: message\ndata: \n\n") := by
  intro env doHTTP shape cfg spec st sessionID request sess h1 h2 h3 h4 h5
  have hb : (sessionID == "") = false := beq_eq_false_iff_ne.mpr h1
  have hCore : handleMCPRequestCore env doHTTP shape cfg spec request = (none, []) := by
    unfold handleMCPRequestCore
    have hv : (request.jsonrpc != "2.0") = false := by
      simp [bne, h4]
    rcases h5 with h5 | h5 <;> simp [hv, h5]
  obtain ⟨conn, hconn⟩ := Option.isSome_iff_exists.mp h3
  unfold handleMCPMessages
  rw [if_neg (by simp [hb])]
  simp only [h2, hCore, Option.map_none', pushMessageToSession, hconn,
    Option.getD_none]
  decide

/-- Witness for the C4 push behaviour at the fixture session and a
`notifications/initialized` notification. -/
theorem claim_C4_notification_push_witness :
    handleMCPMessages env0 doHTTP0 shape0 cfg0 spec0 st0 "s1" notifInitialized =
      (202, some "event: message\ndata: \n\n") :=
  claim_C4_notification_push env0 doHTTP0 shape0 cfg0 spec0 st0 "s1"
    notifInitialized sess1 (by decide) rfl rfl rfl (Or.inl rfl)

end Mcp2Rest
